import Mathlib

/-!
Verification development for the CloudMCP infrastructure-remediation
repository.  The React frontend (`LLMChat`, `App`, `FixHistory`,
`ValidationPanel`) is embedded directly from its source; the FastAPI
backend (orchestrator, monitor, tool registry, analysis client) is not
part of the source tree, so its operations are modelled from the
specification where a claim needs them.
-/

namespace CloudMCP

/-- Resource health status, as produced by the Resource Monitor and
consumed throughout the frontend (`HEALTHY`, `DEGRADED`, `FAILED`,
`UNKNOWN`). -/
inductive Status where
  | HEALTHY
  | DEGRADED
  | FAILED
  | UNKNOWN
deriving DecidableEq, Repr

/-- Execution status of a fix workflow as reported by
`GET /api/fixes/{id}` and stored on a FixEvaluation. -/
inductive ExecStatus where
  | PENDING
  | SUCCESS
  | FAILED
deriving DecidableEq, Repr

/-! ### LLMChat.pollFixStatus (src/unnamed/part_004, lines 69-188) -/

/-- One poll response in `LLMChat.pollFixStatus`: either the request to
`fixService.getById` throws (the `catch` branch) or it returns a fix
whose `execution_status` field may be absent. -/
inductive PollResp where
  | err
  | ok (status : Option ExecStatus)
deriving DecidableEq, Repr

/-- Outcome of the `pollFixStatus` loop: the `fixExecutionStatus`
variable at the end — a terminal status seen in a response, `TIMEOUT`
when the attempt budget is exhausted in the success branch, or `ERROR`
when it is exhausted in the catch branch. -/
inductive PollResult where
  | done (status : ExecStatus)
  | timeout
  | error
deriving DecidableEq, Repr

/-- `const maxAttempts = 30` in `pollFixStatus`. -/
def maxPollAttempts : Nat := 30

/-- The recursive `poll` closure of `LLMChat.pollFixStatus`.
`resp k` is the outcome of the `k`-th request (0-based); `attempts`
mirrors the mutable `attempts` counter at entry to one `poll` call.
A response carrying a present, non-`PENDING` `execution_status` returns
immediately; otherwise `attempts` is incremented and the loop either
re-schedules itself (`attempts < maxAttempts`) or stops with `TIMEOUT`
(success branch) / `ERROR` (catch branch). -/
def pollFixStatusFrom (resp : Nat → PollResp) (attempts : Nat) : PollResult :=
  match resp attempts with
  | PollResp.ok (some s) =>
    if s ≠ ExecStatus.PENDING then PollResult.done s
    else if _h : attempts + 1 < maxPollAttempts then
      pollFixStatusFrom resp (attempts + 1)
    else PollResult.timeout
  | PollResp.ok none =>
    if _h : attempts + 1 < maxPollAttempts then
      pollFixStatusFrom resp (attempts + 1)
    else PollResult.timeout
  | PollResp.err =>
    if _h : attempts + 1 < maxPollAttempts then
      pollFixStatusFrom resp (attempts + 1)
    else PollResult.error
termination_by maxPollAttempts - attempts
decreasing_by all_goals omega

/-- `pollFixStatus` starts with `attempts = 0`. -/
def pollFixStatus (resp : Nat → PollResp) : PollResult :=
  pollFixStatusFrom resp 0

/-- A response that keeps the `poll` loop going: a request error, or a
fix whose `execution_status` is absent or `PENDING`. -/
def isNonTerminal : PollResp → Bool
  | PollResp.err => true
  | PollResp.ok none => true
  | PollResp.ok (some s) => s == ExecStatus.PENDING

/-! ### Tool results in the chat transcript (src/unnamed/part_004, lines 117-140) -/

/-- The `success` field of the `toolMessage` built in `pollFixStatus`:
`success: result?.success !== false`.  The argument is the ToolResult's
`success` field, `none` when absent or `undefined`. -/
def toolMessageSuccess : Option Bool → Bool
  | some false => false
  | some true => true
  | none => true

/-! ### FixHistory.getResourceStatusChange
    (src/frontend/src/components/FixHistory.js, lines 63-80) -/

/-- One entry of the list returned by `getResourceStatusChange`. -/
structure StatusChange where
  resource : String
  before : Option Status
  after : Option Status
deriving DecidableEq, Repr

/-- Key lookup `metrics[resourceName]?.status` on a `before_metrics` /
`after_metrics` object, modelled as an association list from resource
name to the entry's optional `status` field; an absent key yields
`undefined` (`none`). -/
def lookupStatus (metrics : List (String × Option Status)) (name : String) :
    Option Status :=
  match metrics.find? (fun p => p.1 == name) with
  | some p => p.2
  | none => none

/-- `FixHistory.getResourceStatusChange`: iterate over the keys of
`fix.before_metrics`, compare each before status with the after status,
and collect the entries whose status differs. -/
def getResourceStatusChange (before after : List (String × Option Status)) :
    List StatusChange :=
  before.filterMap fun p =>
    let beforeStatus := p.2
    let afterStatus := lookupStatus after p.1
    if beforeStatus ≠ afterStatus then
      some { resource := p.1, before := beforeStatus, after := afterStatus }
    else none

/-! ### App validation state (src/unnamed/part_008 and part_009) -/

/-- One resource as the frontend sees it; only the fields the validation
logic reads are kept. -/
structure Resource where
  name : String
  status : Status
deriving DecidableEq, Repr

/-- The `validationState` React state object of `App`. -/
structure ValidationState where
  failureIntroduced : Bool
  failureType : Option String
  degradedResources : List String
  degradedStateSnapshot : List (String × Status)
  fixTriggered : Bool
  fixCompleted : Bool
deriving DecidableEq, Repr

/-- `r.status === 'DEGRADED' || r.status === 'FAILED'`. -/
def isUnhealthy (r : Resource) : Bool :=
  r.status == Status.DEGRADED || r.status == Status.FAILED

/-- `newResources.length > 0 && newResources.every(r => r.status === 'HEALTHY')`. -/
def allHealthy (rs : List Resource) : Bool :=
  decide (0 < rs.length) && rs.all (fun r => r.status == Status.HEALTHY)

/-- First `setValidationState` callback of `App.updateValidationState`:
while a failure is introduced and no fix is triggered, refresh the
`degradedResources` name list. -/
def updateDegradedList (rs : List Resource) (prev : ValidationState) :
    ValidationState :=
  if prev.failureIntroduced && !prev.fixTriggered then
    { prev with degradedResources := (rs.filter isUnhealthy).map Resource.name }
  else prev

/-- Second `setValidationState` callback of `App.updateValidationState`:
once a fix is triggered, `fixCompleted := allHealthy || prev.fixCompleted`. -/
def updateFixCompleted (rs : List Resource) (prev : ValidationState) :
    ValidationState :=
  if prev.fixTriggered then
    { prev with fixCompleted := allHealthy rs || prev.fixCompleted }
  else prev

/-- `App.updateValidationState(newResources)`: the two sequential
`setValidationState` functional updates, the second seeing the state
left by the first. -/
def updateValidationState (rs : List Resource) (prev : ValidationState) :
    ValidationState :=
  updateFixCompleted rs (updateDegradedList rs prev)

/-- `nameLower.includes(expected.toLowerCase())` — substring test. -/
def strIncludes (s pat : String) : Bool :=
  (List.range (s.length + 1)).any fun i => (s.drop i).startsWith pat

/-- The `expectedResources` table of `App.handleFailureIntroduced`. -/
def expectedResources (failureType : String) : List String :=
  if failureType == "redis" then ["redis"]
  else if failureType == "database" then ["postgres"]
  else if failureType == "nginx" then ["nginx"]
  else ["redis", "postgres", "nginx"]

/-- `foundDegraded`: the unhealthy resources whose lowercase name
contains one of the expected names. -/
def foundDegraded (failureType : String) (rs : List Resource) : List Resource :=
  (rs.filter isUnhealthy).filter fun r =>
    (expectedResources failureType).any fun e => strIncludes r.name.toLower e.toLower

/-- The `degradedSnapshot` object built inside `pollForStatus` when
degraded resources are detected (or the poll budget runs out): the name
and status of every currently unhealthy resource, from the single
`newResources` read of that poll iteration. -/
def degradedSnapshotOf (rs : List Resource) : List (String × Status) :=
  (rs.filter isUnhealthy).map fun r => (r.name, r.status)

/-- The `setValidationState` update performed by `pollForStatus` at
detection time (src/unnamed/part_008, lines 198-214): records that the
failure is introduced and stores the degraded-state snapshot computed
from the one `newResources` read of this iteration. -/
def applyDetection (failureType : String) (rs : List Resource)
    (prev : ValidationState) : ValidationState :=
  { prev with
      failureIntroduced := true
      failureType := some failureType
      degradedResources := (foundDegraded failureType rs).map Resource.name
      degradedStateSnapshot := degradedSnapshotOf rs }

/-- First `setValidationState` update of `App.handleFixTriggered`. -/
def markFixTriggered (prev : ValidationState) : ValidationState :=
  { prev with fixTriggered := true }

/-- Final `setValidationState` update of `App.handleFixTriggered` after
the post-fix status check. -/
def applyFixStatusCheck (rs : List Resource) (prev : ValidationState) :
    ValidationState :=
  { prev with
      fixCompleted := allHealthy rs
      degradedResources := if allHealthy rs then [] else prev.degradedResources }

/-- `App.handleResetValidation`. -/
def resetValidation : ValidationState :=
  { failureIntroduced := false
    failureType := none
    degradedResources := []
    degradedStateSnapshot := []
    fixTriggered := false
    fixCompleted := false }

/-- The validation-state updates that can run after detection and before
a reset: a periodic status poll (`updateResourceStatus` →
`updateValidationState`) or the two phases of `handleFixTriggered`. -/
inductive UiEvent where
  | statusPoll (rs : List Resource)
  | fixStart
  | fixStatusCheck (rs : List Resource)

/-- Apply one validation-state update. -/
def applyUiEvent (v : ValidationState) : UiEvent → ValidationState
  | UiEvent.statusPoll rs => updateValidationState rs v
  | UiEvent.fixStart => markFixTriggered v
  | UiEvent.fixStatusCheck rs => applyFixStatusCheck rs v

/-! ### Spec-modelled backend

The FastAPI backend (Fix Orchestrator, Resource Monitor, Tool Registry,
LLM Analysis Client) is not part of the source tree — only its React
callers, README and scripts are — so the operations below are modelled
from the specification. -/

/-- Modelled from the spec: the missing orchestrator's `max_retries`,
"fixed at 2, i.e., at most 3 total attempts". -/
def max_retries : Nat := 2

/-- Modelled from the spec: one FixAttempt record; only the
`attempt_number` and per-attempt `execution_status` matter to the
claims. -/
structure FixAttempt where
  attempt_number : Nat
  execution_status : ExecStatus
deriving DecidableEq, Repr

/-- Modelled from the spec: a persisted FixEvaluation with its ordered
attempt list and the derived aggregate fields. -/
structure FixEvaluation where
  attempts : List FixAttempt
  execution_status : ExecStatus
  total_attempts : Nat
deriving DecidableEq, Repr

/-- Modelled from the spec: the missing orchestrator's
`ANALYZING → EXECUTING → VERIFYING` loop with its retry edge.
`verify n` says whether verification after attempt `n` found every
previously-unhealthy resource HEALTHY; `retriesLeft` counts the retry
edges still allowed.  Returns the FixAttempt records in append order
together with the terminal aggregate status (`DONE_SUCCESS` /
`DONE_FAILED`). -/
def runAttemptsFrom (verify : Nat → Bool) :
    Nat → Nat → List FixAttempt × ExecStatus
  | n, retriesLeft =>
    if verify n then ([⟨n, ExecStatus.SUCCESS⟩], ExecStatus.SUCCESS)
    else
      match retriesLeft with
      | 0 => ([⟨n, ExecStatus.FAILED⟩], ExecStatus.FAILED)
      | r + 1 =>
        let rest := runAttemptsFrom verify (n + 1) r
        (⟨n, ExecStatus.FAILED⟩ :: rest.1, rest.2)

/-- Modelled from the spec: one full fix workflow — attempt numbers
start at 1, the retry edge is bounded by `max_retries`, and the sealed
FixEvaluation's aggregate fields are derived from its attempt list. -/
def runFix (verify : Nat → Bool) : FixEvaluation :=
  let p := runAttemptsFrom verify 1 max_retries
  { attempts := p.1, execution_status := p.2, total_attempts := p.1.length }

/-- Modelled from the spec: the error returned when `trigger()` is
called while another fix workflow is IN_FLIGHT. -/
inductive TriggerError where
  | FixInProgress
deriving DecidableEq, Repr

/-- Modelled from the spec: orchestrator-owned state — the single-slot
IN_FLIGHT lock and the Evaluation Store's evaluation list. -/
structure Orchestrator where
  inFlight : Bool
  evaluations : List FixEvaluation
deriving DecidableEq, Repr

/-- Modelled from the spec: the FixEvaluation created when a trigger
begins, before any attempt has run. -/
def newEvaluation : FixEvaluation :=
  { attempts := [], execution_status := ExecStatus.PENDING, total_attempts := 0 }

/-- Modelled from the spec: the missing `triggerFix()` API boundary —
while a workflow is IN_FLIGHT the call is rejected with `FixInProgress`
and the state is untouched (nothing queued, no evaluation created);
otherwise the lock is taken and a FixEvaluation is created in the
store. -/
def triggerFix (s : Orchestrator) : Except TriggerError Nat × Orchestrator :=
  if s.inFlight then (Except.error TriggerError.FixInProgress, s)
  else (Except.ok s.evaluations.length,
        { inFlight := true, evaluations := s.evaluations ++ [newEvaluation] })

/-- A ToolResult as recorded for one executed step. -/
structure ToolResult where
  success : Bool
  message : String
deriving DecidableEq, Repr

/-- One FixStep of a FixPlan. -/
structure FixStep where
  tool_name : String
  description : String
deriving DecidableEq, Repr

/-- An LLM-produced FixPlan. -/
structure FixPlan where
  root_cause : String
  reasoning : String
  steps : List FixStep
deriving DecidableEq, Repr

/-- Modelled from the spec: the missing EXECUTING phase runs the plan's
steps strictly in order through the Tool Registry; every step yields a
ToolResult that is recorded, and a failed step does not stop the
remaining steps. -/
def executePlanSteps (exec : FixStep → ToolResult) :
    List FixStep → List ToolResult
  | [] => []
  | s :: rest =>
    let r := exec s
    r :: executePlanSteps exec rest

/-- Modelled from the spec: the missing Analysis Client's plan
validation against the tool catalog — a step whose `tool_name` is not
in the catalog is dropped and a warning is logged (the second component
counts the logged warnings); every known-tool step is kept in order. -/
def validateSteps (catalog : List String) : List FixStep → List FixStep × Nat
  | [] => ([], 0)
  | s :: rest =>
    let p := validateSteps catalog rest
    if catalog.contains s.tool_name then (s :: p.1, p.2) else (p.1, p.2 + 1)

/-- Modelled from the spec: the plan survives validation with its
unknown-tool steps removed; it is never discarded wholesale. -/
def validatePlan (catalog : List String) (p : FixPlan) : Option FixPlan :=
  some { p with steps := (validateSteps catalog p.steps).1 }

/-- Modelled from the spec: the monitored resource kinds. -/
inductive ResourceKind where
  | cache
  | relationalDb
  | proxy
  | container
  | cloudInstance
deriving DecidableEq, Repr

/-- Modelled from the spec: the metric each kind's threshold function
reads.  The spec fixes `memory_usage_percent` for the cache and
`connection_usage_percent` for the relational database; the remaining
kinds use their primary utilisation metric. -/
def requiredMetric : ResourceKind → String
  | ResourceKind.cache => "memory_usage_percent"
  | ResourceKind.relationalDb => "connection_usage_percent"
  | ResourceKind.proxy => "active_connections_percent"
  | ResourceKind.container => "cpu_usage_percent"
  | ResourceKind.cloudInstance => "cpu_usage_percent"

/-- Metric lookup in a metric mapping (metric name → numeric value). -/
def lookupMetric (metrics : List (String × Int)) (name : String) : Option Int :=
  match metrics.find? (fun p => p.1 == name) with
  | some p => some p.2
  | none => none

/-- Modelled from the spec: the missing Monitor's per-kind threshold
function — usage above 95% is FAILED, above 80% DEGRADED, otherwise
HEALTHY; a metric set missing the required key falls back to UNKNOWN. -/
def statusOf (kind : ResourceKind) (metrics : List (String × Int)) : Status :=
  match lookupMetric metrics (requiredMetric kind) with
  | none => Status.UNKNOWN
  | some v =>
    if v > 95 then Status.FAILED
    else if v > 80 then Status.DEGRADED
    else Status.HEALTHY

end CloudMCP

namespace CloudMCP

/-! ### Theorems -/

/-- C10: when rendering tool executions from a polled fix, the chat
marks a step successful exactly when the ToolResult's `success` field is
not literally `false`; an absent or `undefined` field renders as a
success. -/
theorem tool_success_iff_not_false (s : Option Bool) :
    (toolMessageSuccess s = true ↔ s ≠ some false) ∧
    toolMessageSuccess none = true := by
  constructor
  · constructor
    · intro h hs
      subst hs
      simp [toolMessageSuccess] at h
    · intro h
      match s with
      | none => rfl
      | some true => rfl
      | some false => exact absurd rfl h
  · rfl

/-- C9: `FixHistory.getResourceStatusChange` returns exactly the entries
of `before_metrics` whose status differs from the corresponding
`after_metrics` status, paired with those statuses; consequently every
returned resource is a key of `before_metrics`, so a resource present
only in `after_metrics` never appears. -/
theorem getResourceStatusChange_exact
    (before after : List (String × Option Status)) (c : StatusChange) :
    (c ∈ getResourceStatusChange before after ↔
      ((c.resource, c.before) ∈ before ∧
        c.after = lookupStatus after c.resource ∧ c.before ≠ c.after)) ∧
    (∀ c', c' ∈ getResourceStatusChange before after →
      c'.resource ∈ before.map Prod.fst) := by
  have hmem : ∀ d : StatusChange,
      d ∈ getResourceStatusChange before after ↔
        ((d.resource, d.before) ∈ before ∧
          d.after = lookupStatus after d.resource ∧ d.before ≠ d.after) := by
    intro d
    unfold getResourceStatusChange
    rw [List.mem_filterMap]
    constructor
    · rintro ⟨p, hp, hf⟩
      by_cases h : p.2 ≠ lookupStatus after p.1
      · rw [if_pos h] at hf
        injection hf with hd
        subst hd
        exact ⟨hp, rfl, h⟩
      · rw [if_neg h] at hf
        simp at hf
    · rintro ⟨hp, hafter, hne⟩
      refine ⟨(d.resource, d.before), hp, ?_⟩
      have h : d.before ≠ lookupStatus after d.resource := by
        rw [← hafter]; exact hne
      rw [if_pos h, ← hafter]
  refine ⟨hmem c, ?_⟩
  intro c' hc'
  rcases (hmem c').mp hc' with ⟨hp, -, -⟩
  exact List.mem_map_of_mem Prod.fst hp

/-- Witness for C9 at a concrete fix record: a resource of
`before_metrics` with a changed status is listed, and every listed
resource is a `before_metrics` key. -/
theorem getResourceStatusChange_exact_witness :
    ({ resource := "redis", before := some Status.DEGRADED,
       after := some Status.HEALTHY : StatusChange } ∈
      getResourceStatusChange
        [("redis", some Status.DEGRADED)]
        [("redis", some Status.HEALTHY), ("nginx", some Status.FAILED)]) ∧
    (({ resource := "redis", before := some Status.DEGRADED,
        after := some Status.HEALTHY : StatusChange }).resource ∈
      [("redis", some Status.DEGRADED)].map Prod.fst) := by
  have h := getResourceStatusChange_exact
    [("redis", some Status.DEGRADED)]
    [("redis", some Status.HEALTHY), ("nginx", some Status.FAILED)]
    { resource := "redis", before := some Status.DEGRADED,
      after := some Status.HEALTHY }
  have hmem := h.1.mpr ⟨by decide, by decide, by decide⟩
  exact ⟨hmem, h.2 _ hmem⟩

/-! Helper lemmas about the App validation-state updates. -/

theorem updateDegradedList_fixTriggered (rs : List Resource)
    (v : ValidationState) :
    (updateDegradedList rs v).fixTriggered = v.fixTriggered := by
  unfold updateDegradedList
  split <;> rfl

theorem updateDegradedList_fixCompleted (rs : List Resource)
    (v : ValidationState) :
    (updateDegradedList rs v).fixCompleted = v.fixCompleted := by
  unfold updateDegradedList
  split <;> rfl

theorem updateDegradedList_snapshot (rs : List Resource)
    (v : ValidationState) :
    (updateDegradedList rs v).degradedStateSnapshot = v.degradedStateSnapshot := by
  unfold updateDegradedList
  split <;> rfl

theorem updateFixCompleted_fixTriggered (rs : List Resource)
    (v : ValidationState) :
    (updateFixCompleted rs v).fixTriggered = v.fixTriggered := by
  unfold updateFixCompleted
  split <;> rfl

theorem updateFixCompleted_snapshot (rs : List Resource)
    (v : ValidationState) :
    (updateFixCompleted rs v).degradedStateSnapshot = v.degradedStateSnapshot := by
  unfold updateFixCompleted
  split <;> rfl

theorem updateValidationState_fixTriggered (rs : List Resource)
    (v : ValidationState) :
    (updateValidationState rs v).fixTriggered = v.fixTriggered := by
  unfold updateValidationState
  rw [updateFixCompleted_fixTriggered, updateDegradedList_fixTriggered]

theorem updateValidationState_fixCompleted_of_triggered (rs : List Resource)
    (v : ValidationState) (h : v.fixTriggered = true) :
    (updateValidationState rs v).fixCompleted
      = (allHealthy rs || v.fixCompleted) := by
  unfold updateValidationState updateFixCompleted
  have h1 : (updateDegradedList rs v).fixTriggered = true := by
    rw [updateDegradedList_fixTriggered]; exact h
  rw [h1]
  simp [updateDegradedList_fixCompleted]

theorem applyUiEvent_snapshot (v : ValidationState) (e : UiEvent) :
    (applyUiEvent v e).degradedStateSnapshot = v.degradedStateSnapshot := by
  cases e with
  | statusPoll rs =>
    show (updateValidationState rs v).degradedStateSnapshot = _
    unfold updateValidationState
    rw [updateFixCompleted_snapshot, updateDegradedList_snapshot]
  | fixStart => rfl
  | fixStatusCheck rs => rfl

theorem applyUiEvent_fixTriggered_mono (v : ValidationState) (e : UiEvent)
    (h : v.fixTriggered = true) :
    (applyUiEvent v e).fixTriggered = true := by
  cases e with
  | statusPoll rs =>
    show (updateValidationState rs v).fixTriggered = true
    rw [updateValidationState_fixTriggered]; exact h
  | fixStart => rfl
  | fixStatusCheck rs => exact h

theorem foldl_applyUiEvent_snapshot (events : List UiEvent) :
    ∀ v : ValidationState,
      (events.foldl applyUiEvent v).degradedStateSnapshot
        = v.degradedStateSnapshot := by
  induction events with
  | nil => intro v; rfl
  | cons e es ih =>
    intro v
    rw [List.foldl_cons, ih, applyUiEvent_snapshot]

theorem updateValidationState_keeps_completed (rs : List Resource)
    (v : ValidationState) (ht : v.fixTriggered = true)
    (hc : v.fixCompleted = true) :
    (updateValidationState rs v).fixCompleted = true := by
  rw [updateValidationState_fixCompleted_of_triggered rs v ht, hc, Bool.or_true]

theorem foldl_updateValidationState_keeps_completed
    (updates : List (List Resource)) :
    ∀ v : ValidationState, v.fixTriggered = true → v.fixCompleted = true →
      (updates.foldl (fun s u => updateValidationState u s) v).fixCompleted
        = true := by
  induction updates with
  | nil => intro v _ hc; exact hc
  | cons u us ih =>
    intro v ht hc
    rw [List.foldl_cons]
    exact ih _ (by rw [updateValidationState_fixTriggered]; exact ht)
      (updateValidationState_keeps_completed u v ht hc)

/-- C8: in `App.updateValidationState` the `fixCompleted` flag is
recomputed as `allHealthy || prev.fixCompleted` once a fix is
triggered, so over any sequence of resource-status updates processed
while `fixTriggered` holds, `fixCompleted` never goes back from `true`
to `false`. -/
theorem fixCompleted_monotone (updates : List (List Resource))
    (rs : List Resource) (v : ValidationState) (ht : v.fixTriggered = true) :
    ((updateValidationState rs v).fixCompleted
        = (allHealthy rs || v.fixCompleted)) ∧
    (v.fixCompleted = true →
      (updates.foldl (fun s u => updateValidationState u s) v).fixCompleted
        = true) :=
  ⟨updateValidationState_fixCompleted_of_triggered rs v ht,
   fun hc => foldl_updateValidationState_keeps_completed updates v ht hc⟩

/-- Witness for C8: a completed fix stays completed even after a status
update in which every resource is DEGRADED again. -/
theorem fixCompleted_monotone_witness :
    (List.foldl (fun s u => updateValidationState u s)
        { failureIntroduced := true, failureType := some "redis",
          degradedResources := [],
          degradedStateSnapshot := [("redis", Status.DEGRADED)],
          fixTriggered := true, fixCompleted := true }
        [[{ name := "redis", status := Status.DEGRADED }]]).fixCompleted
      = true :=
  (fixCompleted_monotone [[{ name := "redis", status := Status.DEGRADED }]] []
    { failureIntroduced := true, failureType := some "redis",
      degradedResources := [],
      degradedStateSnapshot := [("redis", Status.DEGRADED)],
      fixTriggered := true, fixCompleted := true } rfl).2 rfl

/-- C7: the degraded-state snapshot is computed from the single
resource read of the detecting poll iteration, and no later
validation-state update — periodic status polls or either phase of
`handleFixTriggered` — ever changes it; only `handleResetValidation`
clears it. -/
theorem degraded_snapshot_immutable (failureType : String)
    (rs : List Resource) (v : ValidationState) (events : List UiEvent) :
    (applyDetection failureType rs v).degradedStateSnapshot
        = degradedSnapshotOf rs ∧
    (events.foldl applyUiEvent
        (applyDetection failureType rs v)).degradedStateSnapshot
        = degradedSnapshotOf rs ∧
    resetValidation.degradedStateSnapshot = [] := by
  refine ⟨rfl, ?_, rfl⟩
  rw [foldl_applyUiEvent_snapshot]
  rfl

/-- C1: when verification fails on every attempt, the orchestrator
performs exactly `max_retries + 1 = 3` attempts, the FixAttempt records
carry increasing attempt numbers 1, 2, 3, and the aggregate
execution_status is FAILED. -/
theorem retry_bound_three_attempts (verify : Nat → Bool)
    (h : ∀ n, verify n = false) :
    (runFix verify).attempts.map FixAttempt.attempt_number = [1, 2, 3] ∧
    (runFix verify).total_attempts = max_retries + 1 ∧
    (runFix verify).execution_status = ExecStatus.FAILED ∧
    List.Chain' (· < ·)
      ((runFix verify).attempts.map FixAttempt.attempt_number) := by
  have h3 : runAttemptsFrom verify 1 2 =
      ([⟨1, ExecStatus.FAILED⟩, ⟨2, ExecStatus.FAILED⟩,
        ⟨3, ExecStatus.FAILED⟩], ExecStatus.FAILED) := by
    simp [runAttemptsFrom, h]
  refine ⟨?_, ?_, ?_, ?_⟩ <;> simp [runFix, max_retries, h3]

/-- Witness for C1 with the always-failing verifier. -/
theorem retry_bound_three_attempts_witness :
    (runFix (fun _ => false)).attempts.map FixAttempt.attempt_number
        = [1, 2, 3] ∧
    (runFix (fun _ => false)).execution_status = ExecStatus.FAILED :=
  ⟨(retry_bound_three_attempts (fun _ => false) (fun _ => rfl)).1,
   (retry_bound_three_attempts (fun _ => false) (fun _ => rfl)).2.2.1⟩

/-- C2: in any orchestrator state with a fix workflow IN_FLIGHT, a
`trigger()` call is rejected with `FixInProgress`, the state is
untouched (nothing is queued), and no second FixEvaluation is
created. -/
theorem trigger_mutex_rejects_concurrent (s : Orchestrator)
    (h : s.inFlight = true) :
    (triggerFix s).1 = Except.error TriggerError.FixInProgress ∧
    (triggerFix s).2 = s ∧
    (triggerFix s).2.evaluations = s.evaluations := by
  unfold triggerFix
  rw [h]
  exact ⟨rfl, rfl, rfl⟩

/-- Witness for C2 at a concrete busy orchestrator state. -/
theorem trigger_mutex_rejects_concurrent_witness :
    (triggerFix { inFlight := true, evaluations := [newEvaluation] }).1
        = Except.error TriggerError.FixInProgress ∧
    (triggerFix { inFlight := true, evaluations := [newEvaluation] }).2.evaluations
        = [newEvaluation] :=
  ⟨(trigger_mutex_rejects_concurrent
      { inFlight := true, evaluations := [newEvaluation] } rfl).1,
   (trigger_mutex_rejects_concurrent
      { inFlight := true, evaluations := [newEvaluation] } rfl).2.2⟩

theorem executePlanSteps_eq_map (exec : FixStep → ToolResult) :
    ∀ steps : List FixStep, executePlanSteps exec steps = steps.map exec := by
  intro steps
  induction steps with
  | nil => rfl
  | cons s rest ih => simp [executePlanSteps, ih]

/-- C3: a failed middle step does not abort the remaining steps of an
attempt — for a plan `[A, B, C]` whose step `B` fails, the stored
ToolResult sequence is exactly `[A-result, B-result(failed), C-result]`,
and in general the results are ordered identically to the plan's
steps. -/
theorem step_failure_does_not_abort (exec : FixStep → ToolResult)
    (A B C : FixStep) (h : (exec B).success = false) :
    executePlanSteps exec [A, B, C] = [exec A, exec B, exec C] ∧
    (exec B).success = false ∧
    ∀ steps : List FixStep, executePlanSteps exec steps = steps.map exec :=
  ⟨by simp [executePlanSteps_eq_map], h, executePlanSteps_eq_map exec⟩

/-- Witness for C3 with a concrete plan whose middle step fails. -/
theorem step_failure_does_not_abort_witness :
    executePlanSteps
        (fun s => if s.tool_name == "bad"
          then { success := false, message := "step failed" }
          else { success := true, message := "ok" })
        [{ tool_name := "a", description := "" },
         { tool_name := "bad", description := "" },
         { tool_name := "c", description := "" }]
      = [{ success := true, message := "ok" },
         { success := false, message := "step failed" },
         { success := true, message := "ok" }] := by
  have h := step_failure_does_not_abort
    (fun s => if s.tool_name == "bad"
      then { success := false, message := "step failed" }
      else { success := true, message := "ok" })
    { tool_name := "a", description := "" }
    { tool_name := "bad", description := "" }
    { tool_name := "c", description := "" } rfl
  exact h.1.trans rfl

/-- C4: the status-mapping function is deterministic, total (always one
of the four statuses, it cannot fail), and yields UNKNOWN whenever the
required metric key is missing. -/
theorem status_mapping_total_deterministic (kind : ResourceKind)
    (m m' : List (String × Int)) :
    (m = m' → statusOf kind m = statusOf kind m') ∧
    (lookupMetric m (requiredMetric kind) = none →
      statusOf kind m = Status.UNKNOWN) ∧
    (statusOf kind m = Status.HEALTHY ∨ statusOf kind m = Status.DEGRADED ∨
      statusOf kind m = Status.FAILED ∨ statusOf kind m = Status.UNKNOWN) := by
  refine ⟨fun h => by rw [h], fun h => by simp [statusOf, h], ?_⟩
  cases hl : lookupMetric m (requiredMetric kind) with
  | none => simp [statusOf, hl]
  | some v =>
    simp only [statusOf, hl]
    split_ifs <;> tauto

/-- Witness for C4: an empty metric set maps to UNKNOWN, and the spec's
concrete threshold scenarios evaluate as specified. -/
theorem status_mapping_total_deterministic_witness :
    statusOf ResourceKind.cache [] = Status.UNKNOWN ∧
    statusOf ResourceKind.cache [("memory_usage_percent", 96)]
        = Status.FAILED ∧
    statusOf ResourceKind.relationalDb [("connection_usage_percent", 92)]
        = Status.DEGRADED ∧
    statusOf ResourceKind.cache [("memory_usage_percent", 10)]
        = Status.HEALTHY :=
  ⟨(status_mapping_total_deterministic ResourceKind.cache [] []).2.1 rfl,
   by decide, by decide, by decide⟩

theorem validateSteps_fst (catalog : List String) :
    ∀ steps : List FixStep,
      (validateSteps catalog steps).1
        = steps.filter (fun s => catalog.contains s.tool_name) := by
  intro steps
  induction steps with
  | nil => rfl
  | cons s rest ih =>
    by_cases hc : s.tool_name ∈ catalog <;>
      simp [validateSteps, hc, ih, List.filter_cons]

theorem validateSteps_snd (catalog : List String) :
    ∀ steps : List FixStep,
      (validateSteps catalog steps).2
        = (steps.filter (fun s => !(catalog.contains s.tool_name))).length := by
  intro steps
  induction steps with
  | nil => rfl
  | cons s rest ih =>
    by_cases hc : s.tool_name ∈ catalog <;>
      simp [validateSteps, hc, ih, List.filter_cons]

/-- C5: plan validation drops exactly the steps whose tool is not in
the catalog (one logged warning per dropped step), keeps the remaining
steps in order, never discards the whole plan, and the kept steps are
the ones executed, in plan order. -/
theorem unknown_tool_steps_dropped (catalog : List String) (p : FixPlan)
    (exec : FixStep → ToolResult) :
    validatePlan catalog p
        = some { p with
            steps := p.steps.filter (fun s => catalog.contains s.tool_name) } ∧
    (validateSteps catalog p.steps).2
        = (p.steps.filter (fun s => !(catalog.contains s.tool_name))).length ∧
    executePlanSteps exec (validateSteps catalog p.steps).1
        = ((validateSteps catalog p.steps).1).map exec := by
  refine ⟨?_, validateSteps_snd catalog p.steps,
    executePlanSteps_eq_map exec _⟩
  unfold validatePlan
  rw [validateSteps_fst]

/-! Helper lemmas for the `pollFixStatus` loop and the orchestrator
terminal status. -/

theorem runAttemptsFrom_ne_pending (verify : Nat → Bool) :
    ∀ r n, (runAttemptsFrom verify n r).2 ≠ ExecStatus.PENDING := by
  intro r
  induction r with
  | zero =>
    intro n
    cases hv : verify n <;> simp [runAttemptsFrom, hv]
  | succ r ih =>
    intro n
    cases hv : verify n with
    | true => simp [runAttemptsFrom, hv]
    | false =>
      simp only [runAttemptsFrom, hv, Bool.false_eq_true, if_false]
      exact ih (n + 1)

theorem pollFrom_done_now (resp : Nat → PollResp) (a : Nat) (s : ExecStatus)
    (h : resp a = PollResp.ok (some s)) (hs : s ≠ ExecStatus.PENDING) :
    pollFixStatusFrom resp a = PollResult.done s := by
  conv_lhs => unfold pollFixStatusFrom
  rw [h]
  simp [hs]

theorem pollFrom_cont (resp : Nat → PollResp) (a : Nat)
    (h : isNonTerminal (resp a) = true) (h1 : a + 1 < maxPollAttempts) :
    pollFixStatusFrom resp a = pollFixStatusFrom resp (a + 1) := by
  cases hr : resp a with
  | err =>
    conv_lhs => unfold pollFixStatusFrom
    rw [hr]
    simp [h1]
  | ok st =>
    cases st with
    | none =>
      conv_lhs => unfold pollFixStatusFrom
      rw [hr]
      simp [h1]
    | some s2 =>
      have hpend : s2 = ExecStatus.PENDING := by
        rw [hr] at h
        simpa [isNonTerminal] using h
      subst hpend
      conv_lhs => unfold pollFixStatusFrom
      rw [hr]
      simp [h1]

theorem pollFrom_last (resp : Nat → PollResp) (a : Nat)
    (h : isNonTerminal (resp a) = true) (h1 : ¬(a + 1 < maxPollAttempts)) :
    pollFixStatusFrom resp a =
      (if resp a = PollResp.err then PollResult.error
       else PollResult.timeout) := by
  cases hr : resp a with
  | err =>
    conv_lhs => unfold pollFixStatusFrom
    rw [hr]
    simp [h1]
  | ok st =>
    cases st with
    | none =>
      conv_lhs => unfold pollFixStatusFrom
      rw [hr]
      simp [h1]
    | some s2 =>
      have hpend : s2 = ExecStatus.PENDING := by
        rw [hr] at h
        simpa [isNonTerminal] using h
      subst hpend
      conv_lhs => unfold pollFixStatusFrom
      rw [hr]
      simp [h1]

theorem pollFixStatusFrom_done (resp : Nat → PollResp) (s : ExecStatus)
    (hs : s ≠ ExecStatus.PENDING) :
    ∀ d a, a + d < maxPollAttempts →
      (∀ j, a ≤ j → j < a + d → isNonTerminal (resp j) = true) →
      resp (a + d) = PollResp.ok (some s) →
      pollFixStatusFrom resp a = PollResult.done s := by
  intro d
  induction d with
  | zero =>
    intro a _ _ hk
    rw [Nat.add_zero] at hk
    exact pollFrom_done_now resp a s hk hs
  | succ d ih =>
    intro a hlt hnt hk
    have ha1 : a + 1 < maxPollAttempts := by omega
    have hnta : isNonTerminal (resp a) = true := hnt a le_rfl (by omega)
    rw [pollFrom_cont resp a hnta ha1]
    apply ih (a + 1) (by omega)
    · intro j hj1 hj2
      exact hnt j (by omega) (by omega)
    · have he : a + 1 + d = a + (d + 1) := by omega
      rw [he]; exact hk

theorem pollFixStatusFrom_exhausted (resp : Nat → PollResp) :
    ∀ d a, a + d + 1 = maxPollAttempts →
      (∀ j, a ≤ j → j < maxPollAttempts → isNonTerminal (resp j) = true) →
      pollFixStatusFrom resp a =
        (if resp (maxPollAttempts - 1) = PollResp.err then PollResult.error
         else PollResult.timeout) := by
  intro d
  induction d with
  | zero =>
    intro a ha hnt
    have ha1 : ¬(a + 1 < maxPollAttempts) := by omega
    have hlast : maxPollAttempts - 1 = a := by omega
    have hnta : isNonTerminal (resp a) = true := hnt a le_rfl (by omega)
    rw [hlast]
    exact pollFrom_last resp a hnta ha1
  | succ d ih =>
    intro a ha hnt
    have ha1 : a + 1 < maxPollAttempts := by omega
    have hnta : isNonTerminal (resp a) = true := hnt a le_rfl (by omega)
    rw [pollFrom_cont resp a hnta ha1]
    exact ih (a + 1) (by omega) (fun j hj1 hj2 => hnt j (by omega) hj2)

/-- C6: every trigger reaches a terminal outcome.  On the client side
the `pollFixStatus` loop of `LLMChat` exits with the fix's
execution_status as soon as a poll reports one that is not `PENDING`,
and otherwise stops after at most 30 polls with `TIMEOUT` (or `ERROR`
when the final request also failed); on the (spec-modelled) backend
side every fix workflow ends with a terminal execution_status, never
`PENDING`. -/
theorem poll_loop_terminates (resp : Nat → PollResp) :
    (∀ k s, k < maxPollAttempts →
        (∀ j, j < k → isNonTerminal (resp j) = true) →
        resp k = PollResp.ok (some s) → s ≠ ExecStatus.PENDING →
        pollFixStatus resp = PollResult.done s) ∧
    ((∀ j, j < maxPollAttempts → isNonTerminal (resp j) = true) →
        pollFixStatus resp =
          (if resp (maxPollAttempts - 1) = PollResp.err then PollResult.error
           else PollResult.timeout)) ∧
    (∀ verify : Nat → Bool,
        (runFix verify).execution_status ≠ ExecStatus.PENDING) := by
  refine ⟨?_, ?_, ?_⟩
  · intro k s hk hnt hr hs
    unfold pollFixStatus
    exact pollFixStatusFrom_done resp s hs k 0 (by omega)
      (fun j _ hj2 => hnt j (by omega)) (by rw [Nat.zero_add]; exact hr)
  · intro hnt
    unfold pollFixStatus
    exact pollFixStatusFrom_exhausted resp (maxPollAttempts - 1) 0
      (by decide) (fun j _ hj2 => hnt j hj2)
  · intro verify
    exact runAttemptsFrom_ne_pending verify max_retries 1

/-- Witness for C6: a run that turns SUCCESS on the third poll exits
with `done SUCCESS`; a run whose every request fails stops with
`ERROR`. -/
theorem poll_loop_terminates_witness :
    pollFixStatus (fun k => if k < 2 then PollResp.ok (some ExecStatus.PENDING)
        else PollResp.ok (some ExecStatus.SUCCESS))
      = PollResult.done ExecStatus.SUCCESS ∧
    pollFixStatus (fun _ => PollResp.err) = PollResult.error := by
  constructor
  · exact (poll_loop_terminates _).1 2 ExecStatus.SUCCESS (by decide)
      (by decide) (by decide) (by decide)
  · exact ((poll_loop_terminates (fun _ => PollResp.err)).2.1
      (by decide)).trans (by decide)

end CloudMCP
